import Mathlib

/-!
Verification of the mode-list synchronization subsystem of
`src/web/src/js/ducks/modes/regular.ts`.

The source file under `src/` registers three field setters (`active`,
`listen_host`, `listen_port`), an initial one-entry list, and routes the
`STATE_RECEIVE` and `STATE_UPDATE` events to the same snapshot handler
`updateState("regular", parseRaw)`.  The helper modules it imports
(`./utils`, `../../modes/regular`, `../backendState`) are not part of the
source tree, so their behavior (`parseRaw`, `updateState`, `addSetter`,
`createModeUpdateThunk`) is modelled from the specification, as marked in
each doc comment below.  Fresh randomly generated ui_ids are modelled by a
fresh-id supply (a counter carried next to the list), which captures exactly
the freshness the spec requires of `Math.random()`.
-/

namespace Modes

/-- Error kinds of the subsystem, as listed in the spec's error-handling
design: malformed snapshot data, a setter aimed at a missing entry, and a
failed outbound channel send. -/
inductive ModeError where
  | MalformedSnapshot : ModeError
  | UnknownEntry : ModeError
  | ChannelUnavailable : ModeError
deriving DecidableEq, Repr

/-- Primitive values carried by raw backend data and mutation requests
(booleans, strings, numbers, and an explicit null for unset optionals). -/
inductive Prim where
  | pBool : Bool → Prim
  | pStr : String → Prim
  | pNum : Nat → Prim
  | pNull : Prim
deriving DecidableEq, Repr

/-- Raw backend data for one entry: an ordered list of named primitive
fields, as delivered inside a snapshot event. -/
abbrev RawEntry : Type := List (String × Prim)

/-- One configured instance of the regular mode, mirroring the
`RegularState` shape used by `ducks/modes/regular.ts`: an `active` flag,
optional listen host and port, and the client-generated ephemeral identity
`ui_id` (the source initializes it with `Math.random()`). -/
structure RegularState where
  active : Bool
  listen_host : Option String := none
  listen_port : Option Nat := none
  ui_id : Nat
deriving DecidableEq, Repr

/-- Look up the first field named `k` in a raw entry. -/
def lookupField (raw : RawEntry) (k : String) : Option Prim :=
  (List.find? (fun p => p.1 == k) raw).map (fun p => p.2)

/-- Modelled from the spec: the required-boolean validation `parseRaw`
performs for the `active` field — absent or non-boolean raw data is a
malformed snapshot. -/
def parseActive (raw : RawEntry) : Except ModeError Bool :=
  match lookupField raw "active" with
  | some (Prim.pBool b) => Except.ok b
  | _ => Except.error ModeError.MalformedSnapshot

/-- Modelled from the spec: validation of an optional string field — absence
yields `none`, a present non-string value is a malformed snapshot. -/
def parseOptStr (raw : RawEntry) (k : String) : Except ModeError (Option String) :=
  match lookupField raw k with
  | none => Except.ok none
  | some (Prim.pStr s) => Except.ok (some s)
  | some _ => Except.error ModeError.MalformedSnapshot

/-- Modelled from the spec: validation of an optional numeric field — absence
yields `none`, a present non-numeric value is a malformed snapshot. -/
def parseOptNum (raw : RawEntry) (k : String) : Except ModeError (Option Nat) :=
  match lookupField raw k with
  | none => Except.ok none
  | some (Prim.pNum n) => Except.ok (some n)
  | some _ => Except.error ModeError.MalformedSnapshot

/-- Modelled from the spec: `parseRaw` from `modes/regular` (imported but not
in the source tree).  It validates the declared fields of raw backend data,
ignores unknown fields, and stamps the entry with a freshly generated
ephemeral identity `fresh` that never comes from the raw data itself. -/
def parseRaw (fresh : Nat) (raw : RawEntry) : Except ModeError RegularState :=
  match parseActive raw, parseOptStr raw "listen_host", parseOptNum raw "listen_port" with
  | Except.ok a, Except.ok h, Except.ok p =>
      Except.ok { active := a, listen_host := h, listen_port := p, ui_id := fresh }
  | Except.error err, _, _ => Except.error err
  | _, Except.error err, _ => Except.error err
  | _, _, Except.error err => Except.error err

/-- Modelled from the spec: per-element parsing of a raw snapshot list, each
entry receiving the next identity from the fresh-id supply; any malformed
element rejects the whole list. -/
def parseRawList (start : Nat) : List RawEntry → Except ModeError (List RegularState)
  | [] => Except.ok []
  | r :: rs =>
    match parseRaw start r, parseRawList (start + 1) rs with
    | Except.ok e, Except.ok es => Except.ok (e :: es)
    | Except.error err, _ => Except.error err
    | _, Except.error err => Except.error err

/-- The initial Local Store list of `ducks/modes/regular.ts`: a single entry
with `active := true` and a freshly generated `ui_id` (the source draws it
from `Math.random()`, modelled by the supply value `r`). -/
def initialState (r : Nat) : List RegularState :=
  [{ active := true, ui_id := r }]

/-- The Local Store for the regular mode type together with the fresh-id
supply that models the stream of `Math.random()` draws. -/
structure Store where
  list : List RegularState
  nextId : Nat
deriving DecidableEq, Repr

/-- The store at process start: the initial one-entry list, whose single
entry consumed supply value `r`. -/
def initStore (r : Nat) : Store :=
  ⟨initialState r, r + 1⟩

/-- The three editable fields of the regular mode, each carrying the value
its setter was invoked with — the declarative field-setter registry of the
source (`setActive`, `setListenHost`, `setListenPort`). -/
inductive SetCall where
  | setActive : Bool → SetCall
  | setListenHost : Option String → SetCall
  | setListenPort : Option Nat → SetCall
deriving DecidableEq, Repr

/-- Modelled from the spec: each field's local-apply function — a pure total
update of the named field, leaving every other field of the entry alone. -/
def applyCall : SetCall → RegularState → RegularState
  | SetCall.setActive v, e => { e with active := v }
  | SetCall.setListenHost v, e => { e with listen_host := v }
  | SetCall.setListenPort v, e => { e with listen_port := v }

/-- A mutation request sent to the backend: mode type, entry index, field
name and new value, per the spec's outbound interface. -/
structure MutationRequest where
  modeType : String
  entryIndex : Nat
  field : String
  value : Prim
deriving DecidableEq, Repr

/-- Modelled from the spec: the encode function of the field-setter registry,
turning a setter call at an index into an outbound mutation request. -/
def encodeCall (c : SetCall) (i : Nat) : MutationRequest :=
  match c with
  | SetCall.setActive v => ⟨"regular", i, "active", Prim.pBool v⟩
  | SetCall.setListenHost v =>
      ⟨"regular", i, "listen_host", (v.map Prim.pStr).getD Prim.pNull⟩
  | SetCall.setListenPort v =>
      ⟨"regular", i, "listen_port", (v.map Prim.pNum).getD Prim.pNull⟩

/-- Modelled from the spec: the Local Store mutation `addSetter` registers —
look up the entry at the index and replace it by the local-apply result, or
leave the list untouched when the index is absent. -/
def setFieldLocal (c : SetCall) (i : Nat) (l : List RegularState) :
    List RegularState :=
  match l[i]? with
  | none => l
  | some e => l.set i (applyCall c e)

/-- Modelled from the spec: the optimistic mutation dispatcher built by
`createModeUpdateThunk` — fail with `UnknownEntry` and no side effect when
the index is absent; otherwise mutate the Local Store synchronously and
independently attempt the channel send, whose outcome `sendOk` does not feed
back into the already-applied local mutation. -/
def setField (c : SetCall) (i : Nat) (sendOk : Bool) (l : List RegularState) :
    List RegularState × Except ModeError MutationRequest :=
  match l[i]? with
  | none => (l, Except.error ModeError.UnknownEntry)
  | some e =>
      (l.set i (applyCall c e),
       if sendOk then Except.ok (encodeCall c i)
       else Except.error ModeError.ChannelUnavailable)

/-- Modelled from the spec: the apply-snapshot operation `updateState` — on a
well-formed raw list, replace the whole mode list with the freshly parsed
entries and advance the fresh-id supply; on a malformed list, retain the
prior Local Store state. -/
def updateState (s : Store) (raws : List RawEntry) : Store :=
  match parseRawList s.nextId raws with
  | Except.ok es => ⟨es, s.nextId + raws.length⟩
  | Except.error _ => s

/-- Actions the regular slice can observe: a registered setter at an index
(with the channel-send outcome), the two snapshot events, and any unrelated
action, which Redux delivers to every slice. -/
inductive Action where
  | set : SetCall → Nat → Bool → Action
  | stateReceive : List RawEntry → Action
  | stateUpdate : List RawEntry → Action
  | other : Action

/-- The reducer of `regularSlice`: the three registered setters mutate the
list in place, both snapshot events run the identical apply-snapshot
operation (the source registers `updateState("regular", parseRaw)` for both
`STATE_RECEIVE` and `STATE_UPDATE`), and every other action returns the
state unchanged. -/
def regularReducer (s : Store) : Action → Store
  | Action.set c i sendOk => ⟨(setField c i sendOk s.list).1, s.nextId⟩
  | Action.stateReceive raws => updateState s raws
  | Action.stateUpdate raws => updateState s raws
  | Action.other => s

/-- Stores reachable from some initial store by any sequence of dispatched
actions. -/
inductive Reachable : Store → Prop where
  | init (r : Nat) : Reachable (initStore r)
  | step {s : Store} (a : Action) : Reachable s → Reachable (regularReducer s a)

/-- The spec's malformedness condition for the `active` field: the required
boolean field is absent or of the wrong primitive type. -/
def badActive (raw : RawEntry) : Bool :=
  match lookupField raw "active" with
  | some (Prim.pBool _) => false
  | _ => true

/-- The spec's malformedness condition for `listen_host`: the declared
optional string field is present with the wrong primitive type. -/
def badHost (raw : RawEntry) : Bool :=
  match lookupField raw "listen_host" with
  | none => false
  | some (Prim.pStr _) => false
  | some _ => true

/-- The spec's malformedness condition for `listen_port`: the declared
optional numeric field is present with the wrong primitive type. -/
def badPort (raw : RawEntry) : Bool :=
  match lookupField raw "listen_port" with
  | none => false
  | some (Prim.pNum _) => false
  | some _ => true

/-- Stated from the spec's words, for comparison with `parseRaw`: a raw entry
is malformed exactly when a required field is absent or a declared field is of
the wrong primitive type (unknown fields play no role). -/
def malformedEntry (raw : RawEntry) : Bool :=
  badActive raw || badHost raw || badPort raw

/-- Frame condition for one setter call: every field of the entry other than
the one the call names (the ephemeral `ui_id` included) is unchanged. -/
def preservesUnnamed : SetCall → RegularState → RegularState → Prop
  | SetCall.setActive _, e, f =>
      f.listen_host = e.listen_host ∧ f.listen_port = e.listen_port ∧ f.ui_id = e.ui_id
  | SetCall.setListenHost _, e, f =>
      f.active = e.active ∧ f.listen_port = e.listen_port ∧ f.ui_id = e.ui_id
  | SetCall.setListenPort _, e, f =>
      f.active = e.active ∧ f.listen_host = e.listen_host ∧ f.ui_id = e.ui_id

/-- The named field of the updated entry holds exactly the value the setter
call carried. -/
def namedFieldSet : SetCall → RegularState → Prop
  | SetCall.setActive v, f => f.active = v
  | SetCall.setListenHost v, f => f.listen_host = v
  | SetCall.setListenPort v, f => f.listen_port = v

/-- Run a sequence of dispatcher calls (each a setter call, an index and the
channel-send outcome) against the Local Store list, threading the list
through and discarding the per-call request results. -/
def runCalls (l : List RegularState) : List (SetCall × Nat × Bool) → List RegularState
  | [] => l
  | (c, i, b) :: rest => runCalls (setField c i b l).1 rest

/-- The store invariant carried through every reachable state: ephemeral ids
in the list are pairwise distinct, and all of them were drawn strictly below
the current fresh-id supply. -/
def storeInv (s : Store) : Prop :=
  (s.list.map RegularState.ui_id).Nodup ∧
    ∀ id ∈ s.list.map RegularState.ui_id, id < s.nextId

theorem set_self_of_getElem? {α : Type} :
    ∀ (l : List α) (i : Nat) (e : α), l[i]? = some e → l.set i e = l
  | [], _, _, h => by simp at h
  | x :: xs, 0, e, h => by
      simp at h
      simp [h]
  | x :: xs, i + 1, e, h => by
      simp at h
      simp [set_self_of_getElem? xs i e h]

theorem setField_fst (c : SetCall) (i : Nat) (b : Bool) (l : List RegularState) :
    (setField c i b l).1 = setFieldLocal c i l := by
  unfold setField setFieldLocal
  cases l[i]? <;> simp

theorem applyCall_ui_id (c : SetCall) (e : RegularState) :
    (applyCall c e).ui_id = e.ui_id := by
  cases c <;> rfl

theorem applyCall_idem (c : SetCall) (e : RegularState) :
    applyCall c (applyCall c e) = applyCall c e := by
  cases c <;> rfl

theorem setFieldLocal_map_ui_id (c : SetCall) (i : Nat) (l : List RegularState) :
    (setFieldLocal c i l).map RegularState.ui_id = l.map RegularState.ui_id := by
  unfold setFieldLocal
  cases h : l[i]? with
  | none => rfl
  | some e =>
      rw [List.map_set, applyCall_ui_id,
        set_self_of_getElem? (l.map RegularState.ui_id) i e.ui_id (by simp [h])]

theorem parseRawList_length :
    ∀ (n : Nat) (raws : List RawEntry) (es : List RegularState),
      parseRawList n raws = Except.ok es → es.length = raws.length := by
  intro n raws
  induction raws generalizing n with
  | nil => intro es h; simp [parseRawList] at h; simp [← h]
  | cons r rs ih =>
      intro es h
      unfold parseRawList at h
      cases h1 : parseRaw n r with
      | error err => rw [h1] at h; simp at h
      | ok e =>
          rw [h1] at h
          cases h2 : parseRawList (n + 1) rs with
          | error err => rw [h2] at h; simp at h
          | ok es2 =>
              rw [h2] at h
              simp at h
              subst h
              simp [ih (n + 1) es2 h2]

theorem parseRaw_ui_id (fresh : Nat) (raw : RawEntry) (e : RegularState)
    (h : parseRaw fresh raw = Except.ok e) : e.ui_id = fresh := by
  unfold parseRaw at h
  cases h1 : parseActive raw <;> rw [h1] at h <;>
    cases h2 : parseOptStr raw "listen_host" <;> rw [h2] at h <;>
      cases h3 : parseOptNum raw "listen_port" <;> rw [h3] at h <;>
        simp at h
  simp [← h]

theorem parseRawList_map_ui_id :
    ∀ (n : Nat) (raws : List RawEntry) (es : List RegularState),
      parseRawList n raws = Except.ok es →
        es.map RegularState.ui_id = List.range' n raws.length := by
  intro n raws
  induction raws generalizing n with
  | nil => intro es h; simp [parseRawList] at h; simp [← h]
  | cons r rs ih =>
      intro es h
      unfold parseRawList at h
      cases h1 : parseRaw n r with
      | error err => rw [h1] at h; simp at h
      | ok e =>
          rw [h1] at h
          cases h2 : parseRawList (n + 1) rs with
          | error err => rw [h2] at h; simp at h
          | ok es2 =>
              rw [h2] at h
              simp at h
              subst h
              simp [List.range'_succ, parseRaw_ui_id n r e h1, ih (n + 1) es2 h2]

theorem storeInv_init (r : Nat) : storeInv (initStore r) := by
  constructor <;> simp [initStore, initialState, storeInv]

theorem storeInv_updateState (s : Store) (raws : List RawEntry)
    (h : storeInv s) : storeInv (updateState s raws) := by
  unfold updateState
  cases hp : parseRawList s.nextId raws with
  | error err => exact h
  | ok es =>
      have hm := parseRawList_map_ui_id s.nextId raws es hp
      constructor
      · simp only [hm]
        exact List.nodup_range' s.nextId raws.length
      · intro id hid
        simp only [hm, List.mem_range'] at hid
        obtain ⟨j, hj, rfl⟩ := hid
        simp only []
        omega

theorem storeInv_step (s : Store) (a : Action) (h : storeInv s) :
    storeInv (regularReducer s a) := by
  cases a with
  | set c i b =>
      obtain ⟨h1, h2⟩ := h
      constructor
      · simpa [regularReducer, setField_fst, setFieldLocal_map_ui_id] using h1
      · simpa [regularReducer, setField_fst, setFieldLocal_map_ui_id] using h2
  | stateReceive raws => exact storeInv_updateState s raws h
  | stateUpdate raws => exact storeInv_updateState s raws h
  | other => exact h

theorem storeInv_reachable (s : Store) (h : Reachable s) : storeInv s := by
  induction h with
  | init r => exact storeInv_init r
  | step a _ ih => exact storeInv_step _ a ih

theorem parseRaw_error_iff (fresh : Nat) (raw : RawEntry) :
    (∃ err, parseRaw fresh raw = Except.error err) ↔ malformedEntry raw = true := by
  rcases hA : lookupField raw "active" with _ | (_ | _ | _ | _) <;>
    rcases hH : lookupField raw "listen_host" with _ | (_ | _ | _ | _) <;>
      rcases hP : lookupField raw "listen_port" with _ | (_ | _ | _ | _) <;>
        simp [parseRaw, parseActive, parseOptStr, parseOptNum, malformedEntry,
          badActive, badHost, badPort, hA, hH, hP]

theorem parseRaw_error_kind (fresh : Nat) (raw : RawEntry) (err : ModeError)
    (h : parseRaw fresh raw = Except.error err) : err = ModeError.MalformedSnapshot := by
  revert h
  rcases hA : lookupField raw "active" with _ | (_ | _ | _ | _) <;>
    rcases hH : lookupField raw "listen_host" with _ | (_ | _ | _ | _) <;>
      rcases hP : lookupField raw "listen_port" with _ | (_ | _ | _ | _) <;>
        simp [parseRaw, parseActive, parseOptStr, parseOptNum, hA, hH, hP] <;>
          intro h <;> simp [← h]

theorem lookupField_append_single (raw : RawEntry) (k k2 : String) (v : Prim)
    (h : k ≠ k2) : lookupField (raw ++ [(k, v)]) k2 = lookupField raw k2 := by
  unfold lookupField
  rw [List.find?_append]
  cases hf : List.find? (fun p => p.1 == k2) raw <;>
    simp [List.find?, beq_eq_false_iff_ne.mpr h]

/-- C1: applying a snapshot whose raw list is accepted by the parser — via
either the receive or the update event — replaces the Local Store list
wholesale: the result is exactly the freshly parsed entries, its length is
the raw list's length, and it does not depend on the prior list's length or
content, so no prior entry or pending optimistic field value survives. -/
theorem c1_snapshot_wholesale_replacement (l1 l2 : List RegularState) (n : Nat)
    (raws : List RawEntry) (es : List RegularState)
    (h : parseRawList n raws = Except.ok es) :
    (regularReducer ⟨l1, n⟩ (Action.stateReceive raws)).list = es ∧
    (regularReducer ⟨l1, n⟩ (Action.stateUpdate raws)).list = es ∧
    (regularReducer ⟨l1, n⟩ (Action.stateReceive raws)).list.length = raws.length ∧
    (regularReducer ⟨l1, n⟩ (Action.stateReceive raws)).list
      = (regularReducer ⟨l2, n⟩ (Action.stateReceive raws)).list := by
  simp [regularReducer, updateState, h, parseRawList_length n raws es h]

theorem c1_witness :
    (regularReducer ⟨[], 0⟩
        (Action.stateReceive
          [[("active", Prim.pBool true)], [("active", Prim.pBool false)]])).list.length = 2 :=
  (c1_snapshot_wholesale_replacement [] [] 0
      [[("active", Prim.pBool true)], [("active", Prim.pBool false)]]
      [{ active := true, ui_id := 0 }, { active := false, ui_id := 1 }]
      (by rfl)).2.2.1

/-- C2: for every store and every raw snapshot payload, handling a receive
event produces the same state as handling an update event: the slice
registers the identical apply-snapshot operation for both. -/
theorem c2_receive_update_identical (s : Store) (raws : List RawEntry) :
    regularReducer s (Action.stateReceive raws)
      = regularReducer s (Action.stateUpdate raws) := rfl

/-- C3: a setter aimed at an index outside the current list fails with
`UnknownEntry` and performs no side effect: the returned store component is
the unchanged list. -/
theorem c3_setField_unknown_entry (c : SetCall) (i : Nat) (b : Bool)
    (l : List RegularState) (h : l.length ≤ i) :
    setField c i b l = (l, Except.error ModeError.UnknownEntry) := by
  simp [setField, List.getElem?_eq_none h]

theorem c3_witness :
    setField (SetCall.setActive false) 5 true (initialState 0)
      = (initialState 0, Except.error ModeError.UnknownEntry) :=
  c3_setField_unknown_entry (SetCall.setActive false) 5 true (initialState 0)
    (by decide)

/-- C4: on a valid entry index, the local mutation is applied and kept even
when the channel send fails: the list after a failed send equals the list
after a successful send, the failure is reported as `ChannelUnavailable`,
and the optimistic value sits at the index in both cases — no rollback. -/
theorem c4_send_failure_no_rollback (c : SetCall) (i : Nat)
    (l : List RegularState) (e : RegularState) (h : l[i]? = some e) :
    (setField c i false l).1 = (setField c i true l).1 ∧
    (setField c i false l).2 = Except.error ModeError.ChannelUnavailable ∧
    (setField c i true l).2 = Except.ok (encodeCall c i) ∧
    ((setField c i false l).1)[i]? = some (applyCall c e) := by
  have hlt : i < l.length := (List.getElem?_eq_some.mp h).1
  simp [setField, h, List.getElem?_set_self hlt]

theorem c4_witness :
    ((setField (SetCall.setActive false) 0 false (initialState 0)).1)[0]?
      = some { active := false, ui_id := 0 } :=
  (c4_send_failure_no_rollback (SetCall.setActive false) 0 (initialState 0)
      { active := true, ui_id := 0 } (by decide)).2.2.2

/-- C5: `parseRaw` fails — always with `MalformedSnapshot` — exactly when a
required field is absent or a declared field has the wrong primitive type;
unknown extra fields do not affect the parse; and a snapshot whose raw list
fails to parse leaves the prior Local Store state unchanged. -/
theorem c5_parse_malformed_and_retain :
    (∀ fresh raw, (∃ err, parseRaw fresh raw = Except.error err)
        ↔ malformedEntry raw = true)
    ∧ (∀ fresh raw err, parseRaw fresh raw = Except.error err
        → err = ModeError.MalformedSnapshot)
    ∧ (∀ fresh raw k v, k ≠ "active" → k ≠ "listen_host" → k ≠ "listen_port" →
        parseRaw fresh (raw ++ [(k, v)]) = parseRaw fresh raw)
    ∧ (∀ s raws err, parseRawList s.nextId raws = Except.error err
        → updateState s raws = s) := by
  refine ⟨parseRaw_error_iff, parseRaw_error_kind, ?_, ?_⟩
  · intro fresh raw k v h1 h2 h3
    unfold parseRaw parseActive parseOptStr parseOptNum
    rw [lookupField_append_single raw k "active" v h1,
      lookupField_append_single raw k "listen_host" v h2,
      lookupField_append_single raw k "listen_port" v h3]
  · intro s raws err h
    simp [updateState, h]

theorem c5_witness :
    updateState (initStore 0) [[("active", Prim.pStr "x")]] = initStore 0 :=
  c5_parse_malformed_and_retain.2.2.2 (initStore 0) [[("active", Prim.pStr "x")]]
    ModeError.MalformedSnapshot (by rfl)

/-- C6: every entry built by `parseRaw` carries the freshly supplied
ephemeral id — never a value taken from the raw backend data — and in every
reachable store the ephemeral ids of the list are pairwise distinct, so an
entry added by a list-growing snapshot gets an id distinct from every other
entry's. -/
theorem c6_ephemeral_ids_fresh_and_distinct :
    (∀ fresh raw e, parseRaw fresh raw = Except.ok e → e.ui_id = fresh)
    ∧ (∀ s, Reachable s → (s.list.map RegularState.ui_id).Nodup) := by
  refine ⟨parseRaw_ui_id, ?_⟩
  intro s h
  exact (storeInv_reachable s h).1

theorem c6_witness :
    ((regularReducer (initStore 0)
        (Action.stateReceive
          [[("active", Prim.pBool true)], [("active", Prim.pBool false)]])).list.map
      RegularState.ui_id).Nodup :=
  c6_ephemeral_ids_fresh_and_distinct.2
    (regularReducer (initStore 0)
      (Action.stateReceive
        [[("active", Prim.pBool true)], [("active", Prim.pBool false)]]))
    (Reachable.step
      (Action.stateReceive
        [[("active", Prim.pBool true)], [("active", Prim.pBool false)]])
      (Reachable.init 0))

/-- C7: with no intervening snapshot, a sequence of dispatcher calls leaves
the Local Store equal to the cumulative fold of each call's local-apply
step in call order, and a setter is idempotent in its value: applying the
same call twice yields the state of applying it once. -/
theorem c7_sequence_cumulative_and_idempotent :
    (∀ (calls : List (SetCall × Nat × Bool)) (l : List RegularState),
        runCalls l calls
          = calls.foldl (fun acc p => setFieldLocal p.1 p.2.1 acc) l)
    ∧ (∀ c i l, setFieldLocal c i (setFieldLocal c i l) = setFieldLocal c i l) := by
  constructor
  · intro calls
    induction calls with
    | nil => intro l; rfl
    | cons p rest ih =>
        intro l
        obtain ⟨c, i, b⟩ := p
        simp [runCalls, List.foldl, setField_fst, ih]
  · intro c i l
    cases h : l[i]? with
    | none => simp only [setFieldLocal, h]
    | some e =>
        have hlt : i < l.length := (List.getElem?_eq_some.mp h).1
        simp only [setFieldLocal, h, List.getElem?_set_self hlt, List.set_set,
          applyCall_idem]

theorem c7_witness :
    setFieldLocal (SetCall.setActive false) 0
        (setFieldLocal (SetCall.setActive false) 0 (initialState 0))
      = setFieldLocal (SetCall.setActive false) 0 (initialState 0) :=
  c7_sequence_cumulative_and_idempotent.2 (SetCall.setActive false) 0 (initialState 0)

/-- C8: a setter call on a valid index replaces only the entry at that index
and, inside it, only the named field: the list keeps its length, entries at
all other indices are untouched, the updated entry holds the new value in
the named field, and its other fields — the ephemeral id included — are
preserved. -/
theorem c8_setField_frame (c : SetCall) (i : Nat) (b : Bool)
    (l : List RegularState) (e : RegularState) (h : l[i]? = some e) :
    ((setField c i b l).1).length = l.length ∧
    (∀ j, j ≠ i → ((setField c i b l).1)[j]? = l[j]?) ∧
    ((setField c i b l).1)[i]? = some (applyCall c e) ∧
    namedFieldSet c (applyCall c e) ∧
    preservesUnnamed c e (applyCall c e) := by
  have hlt : i < l.length := (List.getElem?_eq_some.mp h).1
  rw [setField_fst]
  refine ⟨?_, ?_, ?_, ?_, ?_⟩
  · simp [setFieldLocal, h, List.length_set]
  · intro j hj
    simp [setFieldLocal, h, List.getElem?_set_ne (Ne.symm hj)]
  · simp [setFieldLocal, h, List.getElem?_set_self hlt]
  · cases c <;> simp [namedFieldSet, applyCall]
  · cases c <;> simp [preservesUnnamed, applyCall]

theorem c8_witness :
    ((setField (SetCall.setListenPort (some 8080)) 0 true (initialState 0)).1).length = 1 :=
  (c8_setField_frame (SetCall.setListenPort (some 8080)) 0 true (initialState 0)
      { active := true, ui_id := 0 } (by decide)).1

/-- C9: the initial Local Store list for the regular mode type has exactly
one entry, and that entry is active with no listen host and no listen port
set. -/
theorem c9_initialState_shape (r : Nat) :
    (initialState r).length = 1 ∧
    ∀ e ∈ initialState r,
      e.active = true ∧ e.listen_host = none ∧ e.listen_port = none := by
  refine ⟨rfl, ?_⟩
  intro e he
  simp [initialState] at he
  subst he
  exact ⟨rfl, rfl, rfl⟩

theorem c9_witness :
    (initialState 0).length = 1 ∧
    ({ active := true, ui_id := 0 } : RegularState).active = true :=
  ⟨(c9_initialState_shape 0).1,
    ((c9_initialState_shape 0).2 { active := true, ui_id := 0 }
      (by simp [initialState])).1⟩

/-- C10: the regular mode list changes only through the registered
transitions — a field setter applied at an index or one of the two snapshot
events, each routed to its single registered handler — and every other
dispatched action returns the store unchanged. -/
theorem c10_only_registered_transitions :
    (∀ s, regularReducer s Action.other = s)
    ∧ (∀ s c i b, regularReducer s (Action.set c i b)
        = ⟨setFieldLocal c i s.list, s.nextId⟩)
    ∧ (∀ s raws, regularReducer s (Action.stateReceive raws) = updateState s raws
        ∧ regularReducer s (Action.stateUpdate raws) = updateState s raws) := by
  refine ⟨fun s => rfl, ?_, fun s raws => ⟨rfl, rfl⟩⟩
  intro s c i b
  simp [regularReducer, setField_fst]

end Modes
